import Mathlib

/-!
Verification of the core components of the GPGME++ repository (gpgmepp):
the `Flags` bit-set template (src/flags.h), the `Error` value type
(src/error.cpp) and the string splitter (src/util.cpp).

Machine integers are modelled as `Nat` with explicit masking by powers of
two where the C++ code narrows or complements.
-/

namespace GpgME

/-! ## Flags (src/flags.h)

`Flags<Enum, _Nb>` stores an unsigned integer `mFlags` of the underlying
type of `Enum`.  We model the underlying type as a `W`-bit unsigned
integer and the template parameter `_Nb` as `N`.  An enum value is
modelled as its underlying integer, a `Nat` below `2^W`.
-/

/-- Model of `Flags<Enum, _Nb>`: `W` is the bit width of the underlying
type of `Enum`, `N` is the `_Nb` template parameter (defaulting to `W` in
the C++ source), and `mFlags` is the stored integer. -/
structure Flags (W N : Nat) where
  mFlags : Nat
deriving DecidableEq

/-- The default constructor `Flags()`: `mFlags` is zero-initialized. -/
def Flags.empty (W N : Nat) : Flags W N := ⟨0⟩

/-- The constructor `Flags(Enum flag)`: stores the underlying value of the
flag.  The value of a `UnderlyingT` is below `2^W`; we reduce modulo `2^W`
to keep the model total. -/
def Flags.ofEnum (W N : Nat) (flag : Nat) : Flags W N := ⟨flag % 2 ^ W⟩

/-- `Flags::fromUnderlyingType(UnderlyingT flags)`: wraps the raw integer
unchanged (a `UnderlyingT` value is below `2^W`). -/
def Flags.fromUnderlyingType (W N : Nat) (flags : Nat) : Flags W N :=
  ⟨flags % 2 ^ W⟩

/-- `Flags::toUnderlyingType()`: returns the stored integer. -/
def Flags.toUnderlyingType {W N : Nat} (a : Flags W N) : Nat := a.mFlags

/-- `Flags::test(Enum flag)`: `(mFlags & toUnderlying(flag)) == toUnderlying(flag)`. -/
def Flags.test {W N : Nat} (a : Flags W N) (flag : Nat) : Bool :=
  (a.mFlags &&& flag % 2 ^ W) == flag % 2 ^ W

/-- `operator|(Flags, Flags)`. -/
def Flags.or {W N : Nat} (a b : Flags W N) : Flags W N :=
  ⟨a.mFlags ||| b.mFlags⟩

/-- `operator&(Flags, Flags)`. -/
def Flags.and {W N : Nat} (a b : Flags W N) : Flags W N :=
  ⟨a.mFlags &&& b.mFlags⟩

/-- `operator^(Flags, Flags)`. -/
def Flags.xor {W N : Nat} (a b : Flags W N) : Flags W N :=
  ⟨a.mFlags ^^^ b.mFlags⟩

/-- `operator~()`: `Flags(~mFlags & (~std::bitset<_Nb>()).to_ulong())`.
The `W`-bit complement of `mFlags` is `(2^W - 1) ^^^ mFlags` and the
all-ones bitset yields the mask `2^N - 1`. -/
def Flags.compl {W N : Nat} (a : Flags W N) : Flags W N :=
  ⟨((2 ^ W - 1) ^^^ a.mFlags) &&& (2 ^ N - 1)⟩

/-- `Flags::set(Enum flag, bool value)`:
`value ? (*this |= flag) : (*this &= ~Flags(flag))`. -/
def Flags.set {W N : Nat} (a : Flags W N) (flag : Nat) (value : Bool) : Flags W N :=
  if value then a.or (Flags.ofEnum W N flag) else a.and (Flags.ofEnum W N flag).compl

/-- `Flags::reset(Enum flag)`: `(*this &= ~Flags(flag))`. -/
def Flags.reset {W N : Nat} (a : Flags W N) (flag : Nat) : Flags W N :=
  a.and (Flags.ofEnum W N flag).compl

/-- `Flags::reset()`: sets `mFlags` to zero. -/
def Flags.resetAll {W N : Nat} (_a : Flags W N) : Flags W N := ⟨0⟩

/-- `operator bool()`: true iff `mFlags` is non-zero. -/
def Flags.toBool {W N : Nat} (a : Flags W N) : Bool := a.mFlags != 0

/-! ## Error (src/error.cpp)

`Error` wraps a single encoded integer `mErr`.  The packing and unpacking
of encoded values is performed by the external collaborator (libgpg-error
via gpgme); the spec fixes the convention: source in high bits, code in
low bits, with reserved sentinel code values. -/

/-- Modelled from the spec: the external collaborator's reserved sentinel
code value for "no error" (`GPG_ERR_NO_ERROR`). -/
def GPG_ERR_NO_ERROR : Nat := 0

/-- Modelled from the spec: the external collaborator's reserved sentinel
code value for an ordinary "operation canceled" (`GPG_ERR_CANCELED`). -/
def GPG_ERR_CANCELED : Nat := 99

/-- Modelled from the spec: the external collaborator's reserved sentinel
code value for "fully canceled" (`GPG_ERR_FULLY_CANCELED`). -/
def GPG_ERR_FULLY_CANCELED : Nat := 198

/-- Modelled from the spec: the width of the low-order code field of the
external collaborator's stable packing convention (16 bits). -/
def GPG_ERR_CODE_MASK : Nat := 2 ^ 16 - 1

/-- Modelled from the spec: the mask of the source field of the external
collaborator's stable packing convention (7 bits). -/
def GPG_ERR_SOURCE_MASK : Nat := 2 ^ 7 - 1

/-- Modelled from the spec: the shift of the high-order source field of
the external collaborator's stable packing convention (24 bits). -/
def GPG_ERR_SOURCE_SHIFT : Nat := 24

/-- Modelled from the spec: `gpgme_err_make` (external collaborator),
which combines a source and a code verbatim into one encoded integer,
source in the high bits and code in the low bits. -/
def gpgme_err_make (source code : Nat) : Nat :=
  ((source &&& GPG_ERR_SOURCE_MASK) <<< GPG_ERR_SOURCE_SHIFT) ||| (code &&& GPG_ERR_CODE_MASK)

/-- Modelled from the spec: `gpgme_err_code` (external collaborator),
which returns the numeric code with the source bits masked out. -/
def gpgme_err_code (err : Nat) : Nat := err &&& GPG_ERR_CODE_MASK

/-- Modelled from the spec: `gpgme_err_source` (external collaborator),
which returns the numeric source with the code bits masked out. -/
def gpgme_err_source (err : Nat) : Nat :=
  (err >>> GPG_ERR_SOURCE_SHIFT) &&& GPG_ERR_SOURCE_MASK

/-- Model of `GpgME::Error`: wraps the encoded integer `mErr`. -/
structure Error where
  mErr : Nat
deriving DecidableEq

/-- `Error::code()`: `gpgme_err_code(mErr)`. -/
def Error.code (e : Error) : Nat := gpgme_err_code e.mErr

/-- `Error::sourceID()`: `gpgme_err_source(mErr)`. -/
def Error.sourceID (e : Error) : Nat := gpgme_err_source e.mErr

/-- `Error::isSuccess()`: `code() == GPG_ERR_NO_ERROR`. -/
def Error.isSuccess (e : Error) : Bool := e.code == GPG_ERR_NO_ERROR

/-- `Error::isCanceled()`:
`code() == GPG_ERR_CANCELED || code() == GPG_ERR_FULLY_CANCELED`. -/
def Error.isCanceled (e : Error) : Bool :=
  e.code == GPG_ERR_CANCELED || e.code == GPG_ERR_FULLY_CANCELED

/-- `Error::isError()`: `!isSuccess() && !isCanceled()`. -/
def Error.isError (e : Error) : Bool := !e.isSuccess && !e.isCanceled

/-- `Error::fromCode(unsigned int err, unsigned int src)`:
`Error(gpgme_err_make(src, err))`. -/
def Error.fromCode (err src : Nat) : Error := ⟨gpgme_err_make src err⟩

/-! ### Message rendering (src/error.cpp, format_error / asString)

`format_error` renders the description of an encoded error into a
1024-byte stack buffer via `gpgme_strerror_r`, forces a terminating NUL
into the last byte and assigns the buffer to a `std::string`.  We model a
C string as the list of its characters before the terminating NUL, and
the external collaborator's `gpgme_strerror_r` description table as an
abstract function `strerror`. -/

/-- Modelled from the spec: `format_error(err, str)` renders the
description of `err` into a bounded 1024-byte buffer; `gpgme_strerror_r`
truncates to the buffer size and the code forces `buffer[1023] = NUL`, so
the resulting string holds at most the first 1023 characters of the
description supplied by the external collaborator. -/
def format_error (strerror : Nat → List Char) (err : Nat) : List Char :=
  (strerror err).take 1023

/-- Model of the mutable `Error` object for `asString`: the encoded
integer together with the `mMessage` memoization cache (empty until the
first `asString` call). -/
structure ErrorObj where
  mErr : Nat
  mMessage : List Char
deriving DecidableEq

/-- `Error::asString()`: formats `mErr` into `mMessage` if the cache is
empty, then returns the cached text; returns the text together with the
updated object. -/
def ErrorObj.asString (strerror : Nat → List Char) (e : ErrorObj) :
    List Char × ErrorObj :=
  if e.mMessage = [] then
    let m := format_error strerror e.mErr
    (m, { e with mMessage := m })
  else
    (e.mMessage, e)

/-- `Error::asStdString()`: formats `mErr` into a fresh string, leaving
the object unchanged. -/
def ErrorObj.asStdString (strerror : Nat → List Char) (e : ErrorObj) : List Char :=
  format_error strerror e.mErr

end GpgME

/-! ## String splitter (src/util.cpp)

`_gpgmepp::split_into_string_views(const char *s, char delimiter)` scans
the NUL-terminated input left to right with `strchr`, emitting each
non-empty segment between delimiters and finally the non-empty remainder.
A C string is modelled as `Option (List Char)`: `none` is the null
pointer, `some cs` the characters before the terminating NUL. -/

namespace _gpgmepp

/-- The scanning loop of `split_into_string_views`: `seg` is the segment
accumulated since the last delimiter (the characters between `s` and the
running pointer).  On a delimiter the segment is emitted iff non-empty
(`if (segment_size)`), on the terminating NUL the remainder is emitted
iff non-empty (`if (strlen(s))`). -/
def splitLoop (delimiter : Char) : List Char → List Char → List (List Char)
  | seg, [] => if seg = [] then [] else [seg]
  | seg, c :: rest =>
      if c = delimiter then
        (if seg = [] then [] else [seg]) ++ splitLoop delimiter [] rest
      else
        splitLoop delimiter (seg ++ [c]) rest

/-- `split_into_string_views(s, delimiter)`: returns the empty vector for
a null pointer, otherwise runs the scanning loop on the characters. -/
def split_into_string_views (s : Option (List Char)) (delimiter : Char) :
    List (List Char) :=
  match s with
  | none => []
  | some cs => splitLoop delimiter [] cs

end _gpgmepp

/-! ## Theorems -/

namespace _gpgmepp

/-- Every element emitted by the scanning loop is a non-empty segment:
the `if (segment_size)` and `if (strlen(s))` guards skip empty ones. -/
lemma splitLoop_not_nil_mem (d : Char) :
    ∀ (cs seg : List Char), [] ∉ splitLoop d seg cs := by
  intro cs
  induction cs with
  | nil =>
      intro seg h
      by_cases hseg : seg = []
      · simp [splitLoop, hseg] at h
      · simp [splitLoop, hseg] at h
  | cons c rest ih =>
      intro seg h
      by_cases hc : c = d
      · simp only [splitLoop, if_pos hc, List.mem_append] at h
        rcases h with h | h
        · by_cases hseg : seg = []
          · simp [hseg] at h
          · simp [hseg] at h
        · exact ih [] h
      · simp only [splitLoop, if_neg hc] at h
        exact ih (seg ++ [c]) h

end _gpgmepp

/-- Claim C6: `split_into_string_views` returns the empty sequence for a
null input, omits every zero-length segment, includes the final segment
iff it is non-empty, never emits an empty view, and agrees with the eight
listed examples. -/
theorem split_into_string_views_spec :
    _gpgmepp.split_into_string_views none ',' = [] ∧
    _gpgmepp.split_into_string_views (some []) ',' = [] ∧
    _gpgmepp.split_into_string_views (some [',']) ',' = [] ∧
    _gpgmepp.split_into_string_views (some ['a', 'b', 'c']) ',' = [['a', 'b', 'c']] ∧
    _gpgmepp.split_into_string_views (some ['a', 'b', 'c', ',', 'd', 'e', 'f']) ','
      = [['a', 'b', 'c'], ['d', 'e', 'f']] ∧
    _gpgmepp.split_into_string_views (some [',', 'a', 'b', 'c']) ',' = [['a', 'b', 'c']] ∧
    _gpgmepp.split_into_string_views (some ['a', 'b', 'c', ',']) ',' = [['a', 'b', 'c']] ∧
    _gpgmepp.split_into_string_views (some ['a', 'b', 'c', ',', ',', 'd', 'e', 'f']) ','
      = [['a', 'b', 'c'], ['d', 'e', 'f']] ∧
    ∀ (s : Option (List Char)) (d : Char), [] ∉ _gpgmepp.split_into_string_views s d := by
  refine ⟨by decide, by decide, by decide, by decide, by decide, by decide, by decide,
    by decide, ?_⟩
  intro s d
  match s with
  | none => simp [_gpgmepp.split_into_string_views]
  | some cs => exact _gpgmepp.splitLoop_not_nil_mem d cs []

namespace GpgME

/-- Claim C1: for every encoded error integer `v`, exactly one of
`isSuccess`, `isCanceled`, `isError` holds. -/
theorem error_classification_trichotomy (v : Nat) :
    ((Error.mk v).isSuccess = true ∧ (Error.mk v).isCanceled = false ∧
      (Error.mk v).isError = false) ∨
    ((Error.mk v).isSuccess = false ∧ (Error.mk v).isCanceled = true ∧
      (Error.mk v).isError = false) ∨
    ((Error.mk v).isSuccess = false ∧ (Error.mk v).isCanceled = false ∧
      (Error.mk v).isError = true) := by
  by_cases h0 : (Error.mk v).code = GPG_ERR_NO_ERROR
  · left
    simp [Error.isSuccess, Error.isCanceled, Error.isError, h0,
      GPG_ERR_NO_ERROR, GPG_ERR_CANCELED, GPG_ERR_FULLY_CANCELED]
  · by_cases hc : (Error.mk v).code = GPG_ERR_CANCELED ∨
        (Error.mk v).code = GPG_ERR_FULLY_CANCELED
    · right; left
      rcases hc with hc | hc <;>
        simp [Error.isSuccess, Error.isCanceled, Error.isError, hc,
          GPG_ERR_NO_ERROR, GPG_ERR_CANCELED, GPG_ERR_FULLY_CANCELED]
    · right; right
      push_neg at hc
      simp [Error.isSuccess, Error.isCanceled, Error.isError, h0, hc.1, hc.2]

/-- Claim C7: `isCanceled` returns true for exactly the two reserved
cancellation code values, the ordinary-cancel sentinel and the
fully-canceled sentinel, and for no other code value. -/
theorem isCanceled_iff_cancel_sentinel (e : Error) :
    e.isCanceled = true ↔
      (e.code = GPG_ERR_CANCELED ∨ e.code = GPG_ERR_FULLY_CANCELED) := by
  simp [Error.isCanceled]

/-- Claim C9: `test(e)` with an enum value whose underlying integer is 0
returns true on every flag set, the default-constructed empty set
included, because `(stored & 0) == 0` holds vacuously. -/
theorem flags_test_zero (W N : Nat) (a : Flags W N) :
    a.test 0 = true ∧ (Flags.empty W N).test 0 = true := by
  constructor <;> simp [Flags.test, Flags.empty, Nat.zero_mod]

end GpgME

namespace GpgME

/-- Claim C2: for all representable pairs, `fromCode(code, source)`
satisfies `.code() == code` and `.sourceId() == source`: the packing
scheme round-trips. -/
theorem fromCode_roundtrip (code source : Nat)
    (hcode : code ≤ GPG_ERR_CODE_MASK) (hsrc : source ≤ GPG_ERR_SOURCE_MASK) :
    (Error.fromCode code source).code = code ∧
    (Error.fromCode code source).sourceID = source := by
  have hc16 : code < 2 ^ 16 := by
    simp only [GPG_ERR_CODE_MASK] at hcode; omega
  have hs7 : source < 2 ^ 7 := by
    simp only [GPG_ERR_SOURCE_MASK] at hsrc; omega
  constructor
  · apply Nat.eq_of_testBit_eq
    intro i
    simp only [Error.code, Error.fromCode, gpgme_err_code, gpgme_err_make,
      GPG_ERR_CODE_MASK, GPG_ERR_SOURCE_MASK, GPG_ERR_SOURCE_SHIFT,
      Nat.testBit_land, Nat.testBit_lor, Nat.testBit_shiftLeft,
      Nat.testBit_two_pow_sub_one]
    by_cases h16 : i < 16
    · have h24 : ¬ (i ≥ 24) := by omega
      simp [h16, h24]
    · have hbit : code.testBit i = false :=
        Nat.testBit_lt_two_pow
          (lt_of_lt_of_le hc16 (Nat.pow_le_pow_right (by norm_num) (by omega)))
      simp [h16, hbit]
  · apply Nat.eq_of_testBit_eq
    intro i
    simp only [Error.sourceID, Error.fromCode, gpgme_err_source, gpgme_err_make,
      GPG_ERR_CODE_MASK, GPG_ERR_SOURCE_MASK, GPG_ERR_SOURCE_SHIFT,
      Nat.testBit_land, Nat.testBit_lor, Nat.testBit_shiftLeft,
      Nat.testBit_shiftRight, Nat.testBit_two_pow_sub_one]
    have h24 : 24 + i ≥ 24 := by omega
    have h16 : ¬ (24 + i < 16) := by omega
    have hsub : 24 + i - 24 = i := by omega
    by_cases h7 : i < 7
    · simp [h24, h16, hsub, h7]
    · have hbit : source.testBit i = false :=
        Nat.testBit_lt_two_pow
          (lt_of_lt_of_le hs7 (Nat.pow_le_pow_right (by norm_num) (by omega)))
      simp [h24, h16, hsub, h7, hbit]

/-- Witness for the round-trip theorem at the concrete pair (42, 3). -/
theorem fromCode_roundtrip_witness :
    (42 : Nat) ≤ GPG_ERR_CODE_MASK ∧ (3 : Nat) ≤ GPG_ERR_SOURCE_MASK ∧
    (Error.fromCode 42 3).code = 42 ∧ (Error.fromCode 42 3).sourceID = 3 :=
  ⟨by decide, by decide, (fromCode_roundtrip 42 3 (by decide) (by decide)).1,
    (fromCode_roundtrip 42 3 (by decide) (by decide)).2⟩

/-- Claim C8: `asString` renders the description into a bounded buffer of
at most 1024 bytes (at most 1023 characters plus the forced terminating
NUL), truncating rather than overflowing longer descriptions, returning
short descriptions intact; a repeated call returns the same text and
leaves the memoized object unchanged. -/
theorem asString_bounded_and_memoized (strerror : Nat → List Char) (e : ErrorObj)
    (hfresh : e.mMessage = []) :
    ((e.asString strerror).1).length ≤ 1023 ∧
    ((strerror e.mErr).length ≤ 1023 → (e.asString strerror).1 = strerror e.mErr) ∧
    ((e.asString strerror).2.asString strerror).1 = (e.asString strerror).1 ∧
    ((e.asString strerror).2.asString strerror).2 = (e.asString strerror).2 := by
  have hlen : (format_error strerror e.mErr).length ≤ 1023 := by
    simp only [format_error, List.length_take]
    exact Nat.min_le_left _ _
  refine ⟨?_, ?_, ?_, ?_⟩
  · simp only [ErrorObj.asString, hfresh, if_pos]
    exact hlen
  · intro hshort
    simp only [ErrorObj.asString, hfresh, if_pos, format_error]
    exact List.take_of_length_le hshort
  · by_cases hm : format_error strerror e.mErr = []
    · simp [ErrorObj.asString, hfresh, hm]
    · simp [ErrorObj.asString, hfresh, hm]
  · by_cases hm : format_error strerror e.mErr = []
    · simp [ErrorObj.asString, hfresh, hm]
    · simp [ErrorObj.asString, hfresh, hm]

/-- Witness for the `asString` theorem at a concrete object and a
two-character description table. -/
theorem asString_bounded_and_memoized_witness :
    (⟨5, []⟩ : ErrorObj).mMessage = [] ∧
    ((ErrorObj.asString (fun _ => ['o', 'k']) ⟨5, []⟩).1).length ≤ 1023 ∧
    (ErrorObj.asString (fun _ => ['o', 'k']) ⟨5, []⟩).1 = ['o', 'k'] :=
  ⟨rfl, (asString_bounded_and_memoized (fun _ => ['o', 'k']) ⟨5, []⟩ rfl).1,
    (asString_bounded_and_memoized (fun _ => ['o', 'k']) ⟨5, []⟩ rfl).2.1 (by decide)⟩

end GpgME

namespace GpgME

/-- Claim C3: the complement operator masks to the low `N` bits, so its
result is below `2^N` (in particular on the default-constructed set), and
union, intersection and symmetric difference are closed over the `N`-bit
domain. -/
theorem flags_nbit_closure (W N : Nat) (a b : Flags W N) :
    a.compl.toUnderlyingType < 2 ^ N ∧
    ((Flags.empty W N).compl).toUnderlyingType < 2 ^ N ∧
    (a.toUnderlyingType < 2 ^ N → b.toUnderlyingType < 2 ^ N →
      (a.or b).toUnderlyingType < 2 ^ N ∧ (a.and b).toUnderlyingType < 2 ^ N ∧
      (a.xor b).toUnderlyingType < 2 ^ N) := by
  have hmask : ∀ x : Nat, x &&& (2 ^ N - 1) < 2 ^ N := fun x =>
    Nat.lt_of_le_of_lt Nat.and_le_right
      (Nat.sub_lt (Nat.pos_pow_of_pos N (by norm_num)) (by norm_num))
  refine ⟨hmask _, hmask _, fun ha hb => ⟨?_, ?_, ?_⟩⟩
  · exact Nat.or_lt_two_pow ha hb
  · exact Nat.lt_of_le_of_lt Nat.and_le_left ha
  · exact Nat.xor_lt_two_pow ha hb

/-- Witness for the `N`-bit closure theorem at two concrete 8-bit sets. -/
theorem flags_nbit_closure_witness :
    (⟨5⟩ : Flags 8 8).toUnderlyingType < 2 ^ 8 ∧
    (⟨3⟩ : Flags 8 8).toUnderlyingType < 2 ^ 8 ∧
    ((⟨5⟩ : Flags 8 8).or ⟨3⟩).toUnderlyingType < 2 ^ 8 ∧
    (Flags.compl (⟨5⟩ : Flags 8 8)).toUnderlyingType < 2 ^ 8 :=
  ⟨by decide, by decide,
    ((flags_nbit_closure 8 8 ⟨5⟩ ⟨3⟩).2.2 (by decide) (by decide)).1,
    (flags_nbit_closure 8 8 ⟨5⟩ ⟨3⟩).1⟩

/-- Counterexample to claim C4 as stated: with an 8-bit underlying type
and `N = 2`, the value `fromUnderlyingType(4)` carries a bit at position
2 ≥ N and double complement does not restore it. -/
theorem flags_involution_counterexample :
    Flags.compl (Flags.compl (Flags.fromUnderlyingType 8 2 4)) ≠
      Flags.fromUnderlyingType 8 2 4 := by decide

/-- Claim C4 (amended): `|` and `&` are commutative and `a ^ a` is empty
for all flag sets, and `~~a == a` holds for every flag set whose stored
integer is confined to the low `N` bits (always the case for the default
`N` = underlying width; a value carrying bits at positions ≥ `N` is
truncated by double complement). -/
theorem flags_boolean_algebra (W N : Nat) (a b : Flags W N) :
    a.or b = b.or a ∧ a.and b = b.and a ∧ a.xor a = Flags.empty W N ∧
    (a.toUnderlyingType < 2 ^ N → a.compl.compl = a) := by
  obtain ⟨x⟩ := a
  obtain ⟨y⟩ := b
  refine ⟨?_, ?_, ?_, ?_⟩
  · simp [Flags.or, Nat.lor_comm]
  · simp [Flags.and, Nat.land_comm]
  · simp [Flags.xor, Flags.empty, Nat.xor_self]
  · intro hx
    simp only [Flags.compl, Flags.mk.injEq]
    apply Nat.eq_of_testBit_eq
    intro i
    simp only [Nat.testBit_land, Nat.testBit_xor, Nat.testBit_two_pow_sub_one]
    by_cases hiN : i < N
    · by_cases hiW : i < W
      · cases h : x.testBit i <;> simp [hiN, hiW, h]
      · cases h : x.testBit i <;> simp [hiN, hiW, h]
    · have hbit : x.testBit i = false :=
        Nat.testBit_lt_two_pow
          (lt_of_lt_of_le hx (Nat.pow_le_pow_right (by norm_num) (by omega)))
      simp [hiN, hbit]

/-- Witness for the amended boolean-algebra theorem at two concrete 8-bit
sets. -/
theorem flags_boolean_algebra_witness :
    (⟨5⟩ : Flags 8 8).toUnderlyingType < 2 ^ 8 ∧
    (⟨5⟩ : Flags 8 8).or ⟨9⟩ = (⟨9⟩ : Flags 8 8).or ⟨5⟩ ∧
    Flags.compl (Flags.compl (⟨5⟩ : Flags 8 8)) = (⟨5⟩ : Flags 8 8) :=
  ⟨by decide, (flags_boolean_algebra 8 8 ⟨5⟩ ⟨9⟩).1,
    (flags_boolean_algebra 8 8 ⟨5⟩ ⟨9⟩).2.2.2 (by decide)⟩

/-- Counterexample to claim C5 as stated: for an enum value with
underlying integer 0, `test` still returns true immediately after
`reset`, because `(stored & 0) == 0`. -/
theorem flags_reset_zero_counterexample :
    ¬ (((⟨3⟩ : Flags 8 8).reset 0).test 0 = false) := by decide

/-- Claim C5 (amended): `test(e)` is true immediately after `set(e)`; it
is false immediately after `reset(e)` for every enum value whose
underlying integer is non-zero (for the underlying value 0 it is
vacuously true); and `test(e)` is true iff all bits of `e` are set in the
stored integer. -/
theorem flags_test_after_set_reset (W N : Nat) (a : Flags W N) (e : Nat)
    (he : e < 2 ^ W) :
    ((a.set e true).test e = true) ∧
    (e ≠ 0 → (a.reset e).test e = false) ∧
    (a.test e = true ↔ a.mFlags &&& e = e) := by
  have hmod : e % 2 ^ W = e := Nat.mod_eq_of_lt he
  refine ⟨?_, ?_, ?_⟩
  · simp only [Flags.set, if_pos, Flags.or, Flags.ofEnum, Flags.test, hmod]
    have habsorb : (a.mFlags ||| e) &&& e = e := by
      apply Nat.eq_of_testBit_eq
      intro i
      simp only [Nat.testBit_land, Nat.testBit_lor]
      cases e.testBit i <;> simp
    simp [habsorb]
  · intro hne
    simp only [Flags.reset, Flags.and, Flags.ofEnum, Flags.compl, Flags.test, hmod]
    have hzero :
        (a.mFlags &&& (((2 ^ W - 1) ^^^ e) &&& (2 ^ N - 1))) &&& e = 0 := by
      apply Nat.eq_of_testBit_eq
      intro i
      simp only [Nat.testBit_land, Nat.testBit_xor, Nat.testBit_two_pow_sub_one,
        Nat.zero_testBit]
      by_cases hi : i < W
      · cases h : e.testBit i <;> simp [hi, h]
      · have hbit : e.testBit i = false :=
          Nat.testBit_lt_two_pow
            (lt_of_lt_of_le he (Nat.pow_le_pow_right (by norm_num) (by omega)))
        simp [hbit]
    rw [Nat.and_pow_two_sub_one_eq_mod] at hzero
    simp [hzero, Ne.symm hne]
  · simp only [Flags.test, hmod, beq_iff_eq]

/-- Witness for the amended test/set/reset theorem at a concrete 8-bit
set and the flag value 2. -/
theorem flags_test_after_set_reset_witness :
    (2 : Nat) < 2 ^ 8 ∧ ((⟨5⟩ : Flags 8 8).set 2 true).test 2 = true ∧
    ((⟨5⟩ : Flags 8 8).reset 2).test 2 = false :=
  ⟨by decide, (flags_test_after_set_reset 8 8 ⟨5⟩ 2 (by decide)).1,
    (flags_test_after_set_reset 8 8 ⟨5⟩ 2 (by decide)).2.1 (by decide)⟩

/-- Claim C10: `reset(e)` (and the equivalent `set(e, false)`) masks the
stored integer to the low `N` bits, clearing every bit at positions ≥ `N`,
while `fromUnderlyingType` keeps the raw value unchanged and the binary
operators combine high bits bitwise without masking them. -/
theorem flags_reset_masks_high_bits (W N : Nat) (a b : Flags W N) (e v i : Nat) :
    (a.reset e).toUnderlyingType < 2 ^ N ∧
    a.set e false = a.reset e ∧
    (v < 2 ^ W → (Flags.fromUnderlyingType W N v).toUnderlyingType = v) ∧
    (N ≤ i →
      (a.or b).toUnderlyingType.testBit i
        = (a.toUnderlyingType.testBit i || b.toUnderlyingType.testBit i) ∧
      (a.and b).toUnderlyingType.testBit i
        = (a.toUnderlyingType.testBit i && b.toUnderlyingType.testBit i) ∧
      (a.xor b).toUnderlyingType.testBit i
        = (a.toUnderlyingType.testBit i ^^ b.toUnderlyingType.testBit i)) := by
  refine ⟨?_, ?_, ?_, ?_⟩
  · exact Nat.lt_of_le_of_lt (le_trans Nat.and_le_right Nat.and_le_right)
      (Nat.sub_lt (Nat.pos_pow_of_pos N (by norm_num)) (by norm_num))
  · rfl
  · intro hv
    exact Nat.mod_eq_of_lt hv
  · intro _
    exact ⟨Nat.testBit_lor _ _ _, Nat.testBit_land _ _ _, Nat.testBit_xor _ _ _⟩

/-- Witness for the high-bit masking theorem: an 8-bit value 12 keeps its
high bits through `fromUnderlyingType` but `reset` confines it to the low
2 bits. -/
theorem flags_reset_masks_high_bits_witness :
    (12 : Nat) < 2 ^ 8 ∧ (2 : Nat) ≤ 3 ∧
    ((Flags.fromUnderlyingType 8 2 12).reset 1).toUnderlyingType < 2 ^ 2 ∧
    (Flags.fromUnderlyingType 8 2 12).toUnderlyingType = 12 :=
  ⟨by decide, by decide,
    (flags_reset_masks_high_bits 8 2 (Flags.fromUnderlyingType 8 2 12) ⟨4⟩ 1 12 3).1,
    (flags_reset_masks_high_bits 8 2 (Flags.fromUnderlyingType 8 2 12) ⟨4⟩ 1 12 3).2.2.1
      (by decide)⟩

end GpgME
